import Mathlib

/-!
# Verification of the agentic-translator resolution pipeline

Shallow embedding of the translation resolution pipeline of the
`agentic-translator` repository:

* `src/core/validator.py`   — `TranslationValidator.validate_input` / `validate_output`
* `src/core/dictionary_db.py` — `DictionaryDatabase.get_exact_match` and the seed term table
* `src/core/memory.py`      — `TranslationMemory.find_similar`
* `src/core/agent.py`       — `AgenticTranslator.translate` / `_translate_api`
* `src/api/main.py`         — `_get_or_create_session` (session pool)

Python machine-level details are embedded as follows: `str` values become
`String` (a list of characters), `float` scores become `ℚ`, fallible
operations return `Except`/`Option`, and the external collaborators
(vector index, HTTP provider) are passed in as explicit oracle arguments.
Warning/error message strings that carry interpolated numbers are embedded
as inductive payloads carrying the same data.
-/

instance {α β : Type} [DecidableEq α] [DecidableEq β] : DecidableEq (Except α β) := fun a b =>
  match a, b with
  | .error x, .error y =>
    match decEq x y with
    | .isTrue h => .isTrue (h ▸ rfl)
    | .isFalse h => .isFalse (fun he => h (Except.error.inj he))
  | .error _, .ok _ => .isFalse Except.noConfusion
  | .ok _, .error _ => .isFalse Except.noConfusion
  | .ok x, .ok y =>
    match decEq x y with
    | .isTrue h => .isTrue (h ▸ rfl)
    | .isFalse h => .isFalse (fun he => h (Except.ok.inj he))

/-! ## Python string primitives (ASCII semantics, as used by the code) -/

/-- The whitespace characters matched by Python's regex `\s` on ASCII text
(space, tab, newline, carriage return, vertical tab, form feed). -/
def pyIsSpace (c : Char) : Bool :=
  c = ' ' || c = '\t' || c = '\n' || c = '\x0d' || c = '\x0b' || c = '\x0c'

/-- Python `str.lower()` (ASCII case mapping). -/
def pyLower (s : String) : String := ⟨s.data.map Char.toLower⟩

/-- Python `str.upper()` (ASCII case mapping). -/
def pyUpper (s : String) : String := ⟨s.data.map Char.toUpper⟩

/-- Python `str.strip()`: remove leading and trailing whitespace. -/
def pyStrip (s : String) : String :=
  ⟨((s.data.dropWhile pyIsSpace).reverse.dropWhile pyIsSpace).reverse⟩

/-- A character is cased (participates in `str.isupper`). -/
def pyIsCased (c : Char) : Bool := c.isLower || c.isUpper

/-- Python `str.isupper()`: at least one cased character, and every cased
character is uppercase. -/
def pyIsUpperStr (s : String) : Bool :=
  s.data.any pyIsCased && s.data.all (fun c => !pyIsCased c || c.isUpper)

/-- Substring test on character lists: some suffix of `s` starts with `pat`
(Python's `pat in s`). -/
def containsSub (pat : List Char) : List Char → Bool
  | [] => pat.isPrefixOf []
  | c :: rest => pat.isPrefixOf (c :: rest) || containsSub pat rest

/-- Python `str.replace(pat, rep)`, fuel-driven so that the kernel can
evaluate it: replace every non-overlapping occurrence of `pat`, scanning
left to right.  Every step consumes at least one character, so a fuel of
the list's length never runs out. -/
def replaceAllFuel (pat rep : List Char) : Nat → List Char → List Char
  | _, [] => []
  | 0, l => l
  | fuel + 1, c :: rest =>
    if pat.isPrefixOf (c :: rest) && !pat.isEmpty then
      rep ++ replaceAllFuel pat rep fuel (rest.drop (pat.length - 1))
    else
      c :: replaceAllFuel pat rep fuel rest

/-- Python `str.replace(pat, rep)` on character lists. -/
def replaceAll (pat rep l : List Char) : List Char := replaceAllFuel pat rep l.length l

/-- Python-`str.replace` on `String`s. -/
def pyReplace (s pat rep : String) : String := ⟨replaceAll pat.data rep.data s.data⟩

/-- `re.sub(r'<[^>]+>', '', text)`: remove every maximal `<...>` block that
contains at least one character between the brackets.  At a `<` the regex
consumes through the first following `>` provided the gap is nonempty; an
immediately adjacent `<>` matches nothing and both characters are kept. -/
def stripTagsFuel : Nat → List Char → List Char
  | _, [] => []
  | 0, l => l
  | fuel + 1, c :: rest =>
    if c = '<' then
      match rest.findIdx? (fun x => x = '>') with
      | some 0 => c :: stripTagsFuel fuel rest
      | some (m + 1) => stripTagsFuel fuel (rest.drop (m + 2))
      | none => c :: stripTagsFuel fuel rest
    else c :: stripTagsFuel fuel rest

/-- Tag stripping, with fuel `l.length` (every step consumes at least one
character, so the fuel never runs out). -/
def stripTags (l : List Char) : List Char := stripTagsFuel l.length l

/-- `re.sub(r'\s+', ' ', text)`: collapse every maximal whitespace run to a
single space. -/
def collapseWs : List Char → List Char
  | [] => []
  | c :: rest =>
    if pyIsSpace c then
      match rest with
      | [] => [' ']
      | d :: _ => if pyIsSpace d then collapseWs rest else ' ' :: collapseWs rest
    else c :: collapseWs rest

/-- `re.sub(r'[\x00-\x08\x0B\x0C\x0E-\x1F\x7F]', '', text)`: strip
non-printable control characters. -/
def isStrippedCtl (c : Char) : Bool :=
  (c.toNat ≤ 0x08) || c.toNat = 0x0b || c.toNat = 0x0c ||
  (0x0e ≤ c.toNat && c.toNat ≤ 0x1f) || c.toNat = 0x7f

/-- The sanitization chain of `TranslationValidator._sanitize_text`, in
source order: strip HTML-like tags, collapse whitespace runs and trim,
strip control characters (the UTF-8 round-trip is the identity on valid
strings). -/
def sanitizeChars (l : List Char) : List Char :=
  let l1 := stripTags l
  let l2 := collapseWs l1
  let l3 := ((l2.dropWhile pyIsSpace).reverse.dropWhile pyIsSpace).reverse
  l3.filter (fun c => !isStrippedCtl c)

/-! ## Validator (`src/core/validator.py`) -/

/-- Drop everything up to and including the first occurrence of `c`;
`none` when `c` does not occur. -/
def afterFirst (c : Char) : List Char → Option (List Char)
  | [] => none
  | x :: rest => if x = c then some rest else afterFirst c rest

/-- `re.search(r"<script.*?>.*?</script>", s)` (existence of a match, on
text without newlines): some suffix starts with `<script`, a `>` follows,
and `</script>` occurs after that `>`. -/
def hasScriptTag : List Char → Bool
  | [] => false
  | c :: rest =>
    ("<script".data.isPrefixOf (c :: rest) &&
      (match afterFirst '>' ((c :: rest).drop 7) with
       | some l2 => containsSub "</script>".data l2
       | none => false)) || hasScriptTag rest

/-- `re.search(r"eval\(.*\)", s)`: an occurrence of `eval(` with a `)`
somewhere after it. -/
def hasEvalCall : List Char → Bool
  | [] => false
  | c :: rest =>
    ("eval(".data.isPrefixOf (c :: rest) && (rest.drop 4).contains ')') || hasEvalCall rest

/-- `re.search(pat + r"\s*=", s)`: an occurrence of `pat` followed by
optional whitespace and `=` (used for `onload` / `onerror`). -/
def hasAttrEq (pat : List Char) : List Char → Bool
  | [] => false
  | c :: rest =>
    (pat.isPrefixOf (c :: rest) &&
      (match ((c :: rest).drop pat.length).dropWhile pyIsSpace with
       | '=' :: _ => true
       | _ => false)) || hasAttrEq pat rest

/-- `TranslationValidator._check_injection`: any of the banned patterns,
matched case-insensitively against the sanitized text. -/
def hasInjection (l : List Char) : Bool :=
  let low := l.map Char.toLower
  hasScriptTag low || hasEvalCall low || containsSub "javascript:".data low ||
  hasAttrEq "onload".data low || hasAttrEq "onerror".data low

/-- Validation errors; the embedded payloads stand for the interpolated
parts of the Python error strings. -/
inductive VError where
  | emptyText
  | unsupportedLanguage (lang : String)
  | textTooShort (len : Nat)
  | dangerousContent
  deriving DecidableEq, Repr

/-- `ValidationResult` (the `warnings`/`metadata` fields are write-only in
the pipeline — no consumer reads them — and are omitted). -/
structure ValidationResult where
  is_valid : Bool
  sanitized_text : String
  errors : List VError
  deriving DecidableEq, Repr

/-- The fixed supported-language set of `TranslationValidator.config`. -/
def supportedLanguages : List String :=
  ["zu", "en", "af", "xh", "nso", "st", "ts", "ss", "ve", "tn", "nr"]

/-- `TranslationValidator.validate_input`: the short-circuiting pipeline of
emptiness, language, length (truncation at 5000), sanitization and
injection checks.  The warning-only heuristics never change `is_valid` or
`sanitized_text` and are omitted. -/
def validate_input (text targetLang : String) : ValidationResult :=
  if text.data.all pyIsSpace then
    ⟨false, text, [.emptyText]⟩
  else if !supportedLanguages.contains targetLang then
    ⟨false, text, [.unsupportedLanguage targetLang]⟩
  else if text.length < 1 then
    ⟨false, text, [.textTooShort text.length]⟩
  else
    let truncated := if text.length > 5000 then text.data.take 5000 else text.data
    let cleaned := sanitizeChars truncated
    if hasInjection cleaned then
      ⟨false, ⟨cleaned⟩, [.dangerousContent]⟩
    else
      ⟨true, ⟨cleaned⟩, []⟩

/-! ## Quality scorer (`TranslationValidator.validate_output`) -/

/-- Output-quality warnings; ratio payloads stand for the interpolated
ratio in the Python warning strings. -/
inductive QWarning where
  | noTranslation
  | apiSameText
  | tooShort (ratio : ℚ)
  | tooLong (ratio : ℚ)
  | untranslatedMarkers
  deriving DecidableEq, Repr

/-- The result dictionary of `validate_output`.  `score` is `none` exactly
when the Python dict carries no `"score"` key (the empty-candidate early
return); reading it then raises `KeyError`. -/
structure OutputAssessment where
  quality : String
  score : Option ℚ
  warnings : List QWarning
  deriving DecidableEq, Repr

/-- The placeholder markers checked by rule 5 of the scorer. -/
def placeholderMarkers : List String := ["[UNK]", "[MASK]", "???", "<...>", "##"]

/-- `any(ph in translated_text for ph in placeholders)`. -/
def hasPlaceholder (s : String) : Bool :=
  placeholderMarkers.any (fun ph => containsSub ph.data s.data)

/-- `TranslationValidator.validate_output(source_text, translated_text,
source_type)`, rule for rule: empty-candidate early return (no score key),
api-identical early return, length-ratio check, dictionary override,
placeholder downgrade.  Scores and the length ratio are exact rationals;
`mkRat a b` is `(a : ℚ) / (b : ℚ)` (`Rat.mkRat_eq_div`), spelled so that the
kernel can evaluate it. -/
def validate_output (source_text translated_text source_type : String) : OutputAssessment :=
  if translated_text = "" then
    ⟨"error", none, [.noTranslation]⟩
  else if source_type = "api" && pyLower translated_text = pyLower source_text then
    ⟨"low", some (mkRat 1 5), [.apiSameText]⟩
  else
    let step :=
      if source_text.length > 0 then
        let ratio : ℚ := mkRat translated_text.length source_text.length
        if ratio < mkRat 3 10 then ("low", mkRat 3 10, [QWarning.tooShort ratio])
        else if ratio > 3 then ("low", mkRat 2 5, [QWarning.tooLong ratio])
        else ("medium", mkRat 4 5, [])
      else ("medium", mkRat 4 5, [])
    let step2 :=
      if source_type = "dictionary" then ("high", mkRat 19 20, step.2.2)
      else step
    if hasPlaceholder translated_text then
      ⟨"low", some (mkRat 1 2), step2.2.2 ++ [.untranslatedMarkers]⟩
    else
      ⟨step2.1, some step2.2.1, step2.2.2⟩

/-! ## Term Store (`src/core/dictionary_db.py`) -/

/-- The seed term table of `DictionaryDatabase._initialize_with_your_data`,
in source order, duplicates included.  The Python `dict` literal keeps the
last value for a duplicated key; `lookupTerm` below realizes that. -/
def dictTerms : List (String × String) := [
  ("dr", "udkt"),
  ("dr.", "udkt"),
  ("doctor", "udokotela"),
  ("prof", "uslz"),
  ("prof.", "uslz"),
  ("professor", "usolwazi"),
  ("mr", "mnu"),
  ("mr.", "mnu"),
  ("mister", "mnumzane"),
  ("mrs", "nkz"),
  ("mrs.", "nkz"),
  ("miss", "nkz"),
  ("ms", "nkz"),
  ("ms.", "nkz"),
  ("dept", "umnyango"),
  ("dept.", "umnyango"),
  ("department", "umnyango"),
  ("dir", "umqondisi"),
  ("dir.", "umqondisi"),
  ("director", "umqondisi"),
  ("chair", "usihlalo"),
  ("chairperson", "usihlalo"),
  ("coord", "umxhumanisi"),
  ("coord.", "umxhumanisi"),
  ("coordinator", "umxhumanisi"),
  ("ukzn", "i-ukzn"),
  ("ulpd", "i-ulpd"),
  ("ulpdo", "i-ulpdo"),
  ("kznplc", "i-kznplc"),
  ("iso", "i-iso"),
  ("h", "h"),
  ("hr", "ihora"),
  ("hrs", "amahora"),
  ("hrs.", "amahora"),
  ("min", "imizuzu"),
  ("mins", "imizuzu"),
  ("min.", "imizuzu"),
  ("am", "ekuseni"),
  ("pm", "ntambama"),
  ("q & a", "imibuzo nezimpendulo"),
  ("q&a", "imibuzo nezimpendulo"),
  ("registration and tea", "ukubhalisa netiye"),
  ("comfort break", "ikhefu lokuzelula"),
  ("closing remarks", "amazwi okuvala"),
  ("vote of thanks", "amazwi okubonga"),
  ("lunch and departure", "isidlo sasemini nokugoduka"),
  ("workshop", "inkuthazakwenza"),
  ("workshop on", "inkuthazakwenza ye"),
  ("language standardisation", "ukuvamisa ulimi"),
  ("standardisation", "ukuvamisa"),
  ("language", "ulimi"),
  ("date", "mhla"),
  ("day", "usuku"),
  ("time", "isikhathi"),
  ("activity", "okwenziwayo"),
  ("person responsible", "umuntu okenzayo"),
  ("persons responsible", "abantu abakenzayo"),
  ("registration", "ukubhalisa"),
  ("tea", "itiye"),
  ("opening remarks", "amazwi okuvula"),
  ("welcome address", "inkulumo yokwamukela"),
  ("introduction", "ukwethulwa"),
  ("facilitators", "abethulisifundo"),
  ("facilitator", "mthulisifundo"),
  ("process", "inqubo"),
  ("comfort break", "ikhefu lokuzelula"),
  ("break", "ikhefu"),
  ("lunch", "isidlo sasemini"),
  ("lunch break", "ikhefu lesidlo sasemini"),
  ("closing remarks", "amazwi okuvala"),
  ("departure", "ukugoduka"),
  ("departure and lunch", "isidlo sasemini nokugoduka"),
  ("materials development", "ukusungula nokuthuthukisa izinsizakufundisa"),
  ("materials", "izinsizakufundisa"),
  ("development workshop", "inkuthazakwenza yokuthuthukisa"),
  ("invigorating", "ukuvuselela"),
  ("african languages", "izilimi zase-afrika"),
  ("university glossaries", "uhlumatemu lwezilimi emanyuvesi"),
  ("glossaries", "uhlumatemu lwezilimi"),
  ("glossary", "uhlumatelu lwolimi"),
  ("concept development", "ukuthuthukiswa komqondomsuka"),
  ("concept", "umqondomsuka"),
  ("concepts", "imiqondomsuka"),
  ("ukzn specific", "ezise-ukzn"),
  ("foundational concepts", "imiqondomsuka eyisisekelo"),
  ("foundational", "eyisisekelo"),
  ("series", "uchungechunge"),
  ("select a discipline", "sikhetha umkhakha"),
  ("discipline", "umkhakha"),
  ("identify key foundational concepts", "sihlonze imiqondomsuka ebalulekile neyisisekelo"),
  ("key concepts", "imiqondomsuka ebalulekile"),
  ("year 1 undergraduate", "bafundi abenza unyaka wokuqala enyuvesi"),
  ("undergraduate", "bafundi benyuvesi"),
  ("year 1", "unyaka wokuqala"),
  ("how to communicate", "sixhumana kanjani"),
  ("communicate", "sixhumana"),
  ("target audience", "izethameli ezihlosiwe"),
  ("audience", "izethameli"),
  ("target", "ezihlosiwe"),
  ("convey concepts", "ukuyidlulisela imiqondomsuka"),
  ("convey", "ukudlulisela"),
  ("beyond terminology", "asigcini ngokuqamba nje kuphela"),
  ("terminology", "ukuqamba"),
  ("to communication", "ekuxhumaneni"),
  ("communication", "ukuxhumana"),
  ("visual language", "ulimi lohlelokuxhumana ngokwezimpawu"),
  ("visual", "ngokwezimpawu"),
  ("instructional designer", "umklami wezinsizakufundisa"),
  ("instructional design", "ukuklama izinsizakufundisa"),
  ("graphic designer", "umklamimidwebo"),
  ("graphic design", "ukuklama imidwebo"),
  ("identify a visual language", "ngokuhlonza ulimi lohlelokuxhumana ngokwezimpawu"),
  ("convey what we want", "lwalokho esikulindele"),
  ("concept and the visual", "umqondomsuka nezimpawu"),
  ("produce a basic example", "sizokwenza isibonelo esisobala"),
  ("basic example", "isibonelo esisobala"),
  ("visual and text", "izimpawu nombhalo"),
  ("text", "umbhalo"),
  ("further development", "ukuqhubeka nokuthuthukiswa"),
  ("further", "ukuqhubeka"),
  ("review and reflection", "ukubuyekeza nokuphawula ngomsebenzi owenziwe"),
  ("review", "ukubuyekeza"),
  ("reflection", "okuphawula ngomsebenzi owenziwe"),
  ("work done", "ngomsebenzi owenziwe"),
  ("standardisation process", "inqubo yokuvamisa"),
  ("politics of standardisation", "ipolitiki yohlelo lokuvamisa"),
  ("politics", "ipolitiki"),
  ("iso standards", "amaqophelomvama e-iso"),
  ("standards", "amaqophelomvama"),
  ("terminology development", "ukuqanjwa kwamatemu"),
  ("development", "ukuqanjwa"),
  ("indigenous languages", "izilimi zomdabu"),
  ("indigenous", "zomdabu"),
  ("linguistic challenging", "ucwaningozilimu luphosela inselelo"),
  ("linguistic", "locwaningozilimu"),
  ("sociology of standards", "isifundonhlalobantu ngokwamaqophelomvama"),
  ("sociology", "isifundonhlalobantu"),
  ("best practices", "izindlelanhle"),
  ("practices", "izindlelanhle"),
  ("morpho-syntactic annotations", "izingcaciso ngokwezakhiwomagama nangokohlelomisho"),
  ("morpho-syntactic", "ngokwezakhiwomagama nangokohlelomisho"),
  ("annotations", "izingcaciso"),
  ("example", "isibonelo"),
  ("community of practice", "ulusetshenziswayo"),
  ("dissemination", "ukusatshalaliswa"),
  ("dissemination of terminology", "ukusatshalaliswa kwamatemu"),
  ("linguistic works", "imisebenzi yezocwaningozilimi"),
  ("works", "imisebenzi"),
  ("questions and answers", "imibuzo nezimpendulo"),
  ("questions", "imibuzo"),
  ("answers", "izimpendulo"),
  ("evaluation", "uhlolobunjalo ngesifundo"),
  ("university", "inyuvesi"),
  ("department chair", "usekelasihlalo"),
  ("programme director", "umphathi wohlelo"),
  ("opening", "ukuqala"),
  ("closing", "ukuvala"),
  ("session", "isifundo"),
  ("presentation", "ukwethulwa"),
  ("discussion", "ingxoxo"),
  ("panel", "iphaneli"),
  ("keynote", "inkulumo eqondisayo"),
  ("speaker", "isikhulumi"),
  ("attendee", "ozohambela"),
  ("participant", "ozohlanganyela"),
  ("organizer", "umhleli"),
  ("minutes", "imizuzu"),
  ("hours", "amahora"),
  ("duration", "ubude besikhathi"),
  ("schedule", "uhlelo"),
  ("agenda", "uhlelo"),
  ("programme", "uhlelo"),
  ("timetable", "uhlelo lwezikhathi"),
  ("december", "zibandlela"),
  ("november", "kulwezi"),
  ("february", "kolandela"),
  ("thursday", "ulwesine"),
  ("friday", "ulwesihlanu"),
  ("proceedings", "izingcaciselo"),
  ("abstract", "isifinyezo"),
  ("paper", "iphepha"),
  ("publication", "ukushicilelwa"),
  ("handbook", "incwadi yesandla"),
  ("manual", "incwadi yomsebenzi"),
  ("guide", "isikhombisi"),
  ("template", "isifanekiso"),
  ("research", "ucwaningo"),
  ("study", "isifundo"),
  ("analysis", "uhlaziyo"),
  ("methodology", "indlela yokusebenza"),
  ("framework", "uhlaka"),
  ("model", "imodeli"),
  ("theory", "inkolelo-mqondo"),
  ("concept", "umqondo"),
  ("definition", "incazelo"),
  ("classification", "ukuhlukanisa"),
  ("categorization", "ukuhlukanisa ngezigaba"),
  ("register", "bhalisa"),
  ("open", "vula"),
  ("welcome", "wamukela"),
  ("introduce", "ethula"),
  ("present", "ethula"),
  ("facilitate", "thulisa"),
  ("standardize", "vamisa"),
  ("develop", "qamba"),
  ("challenge", "phonsela inselelo"),
  ("disseminate", "satshalalisa"),
  ("evaluate", "hlola"),
  ("thank", "bonga"),
  ("close", "vala"),
  ("depart", "goduka"),
  ("academic", "ezemfundo"),
  ("scientific", "zesayensi"),
  ("technical", "zobuchwepheshe"),
  ("professional", "zobungcweti"),
  ("formal", "ezisemthethweni"),
  ("informal", "ezingezona ezisemthethweni"),
  ("standard", "evamile"),
  ("quality", "ikhwalithi"),
  ("accuracy", "ukunemba"),
  ("precision", "ukunemba ngokweqile"),
  ("consistency", "ukuqhubekela phambili"),
  ("reliability", "ukwethembeka"),
  ("validity", "ukuba semthethweni"),
  ("venue", "indawo"),
  ("location", "indawo"),
  ("logistics", "izinto zokuhlela"),
  ("accommodation", "indawo yokuhlala"),
  ("transport", "izinto zokuthutha"),
  ("catering", "ukuletha ukudla"),
  ("equipment", "izinto zokusebenza"),
  ("secretary", "unobhala"),
  ("treasurer", "umphathi wezimali"),
  ("advisor", "umeluleki"),
  ("consultant", "umphenyi ngezeluleko"),
  ("expert", "ingcweti"),
  ("specialist", "ochwepheshe"),
  ("first", "loku-1"),
  ("second", "lwesi-2"),
  ("one", "loku-1"),
  ("two", "lwesi-2"),
  ("all", "sonke"),
  ("and", "futhi"),
  ("or", "noma"),
  ("but", "kodwa"),
  ("with", "nga"),
  ("without", "ngaphandle kwa"),
  ("for", "nge"),
  ("about", "nga"),
  ("during", "ngesikhathi"),
  ("after", "ngemuva kwa"),
  ("before", "ngaphambi kwa"),
  ("according to", "ngokwe"),
  ("within the", "ngaphakathi kwe"),
  ("for the", "nge"),
  ("of the", "ka"),
  ("in the", "ku"),
  ("to the", "uku"),
  ("and the", "futhi"),
  ("with the", "nga"),
  ("vote of thanks & closing remarks", "amazwi okubonga nokuvala"),
  ("vote of thanks and closing remarks", "amazwi okubonga nokuvala"),
  ("vote of thanks", "amazwi okubonga"),
  ("programme materials development workshop", "inkuthazakwenza yokusungula nokuthuthukisa izinsizakufundisa zohlelo"),
  ("materials development workshop", "inkuthazakwenza yokuthuthukisa izinsizakufundisa"),
  ("introduction of the facilitator", "ukwethulwa komthulisifundo"),
  ("introduction of facilitator", "ukwethulwa komthulisifundo"),
  ("facilitator introduction", "ukwethulwa komthulisifundo"),
  ("developing a ukzn specific african language foundational concepts series", "ukuthuthukisa uchungechunge lwemiqondomsuka eyisisekelo yezilimi zase-afrika ezise-ukzn"),
  ("welcome by", "siyakwamukela nge"),
  ("dvc", "idvc"),
  ("wrap-up", "ukusongwa"),
  ("evaluation", "ukuhlolwa"),
  ("workshop evaluation", "ukuhlolwa kwenkuthazakwenza"),
  ("welcome by ukzn dvc", "siyakwamukela ngedvc yase-ukzn"),
  ("evaluation of the workshop", "ukuhlolwa kwenkuthazakwenza"),
  ("workshop wrap-up", "ukusongwa kwenkuthazakwenza"),
  ("closing", "ukuvala"),
  ("remarks", "amazwi"),
  ("introductions", "izethulo")]

/-- Point lookup by normalized key, as realized by
`collection.get(where={"english_original": variant}, limit=1)` over the
deduplicated store: for a duplicated key the last value of the literal
wins (Python `dict` semantics). -/
def lookupTerm (k : String) : Option String :=
  (dictTerms.reverse.find? (fun p => p.1 == k)).map Prod.snd

/-- The deterministic variant list generated by `get_exact_match` for the
lowercased, stripped text: as-is, `&`→`and`, `&`→` and `, periods removed,
double spaces collapsed, then — for every variant already generated that
starts with `"the "` — the same text with that leading article stripped. -/
def variantsOf (tl : String) : List String :=
  let base := [tl, pyReplace tl "&" "and", pyReplace tl "&" " and ",
               pyReplace tl "." "", pyReplace tl "  " " "]
  base ++ (base.filter (fun v => "the ".data.isPrefixOf v.data)).map
    (fun v => pyStrip ⟨v.data.drop 4⟩)

/-- A Python value passed to `get_exact_match`: `None`, a `str`, or a
non-string object (`isinstance(text, str)` is `False`). -/
inductive PyVal where
  | vNone
  | vStr (s : String)
  | vOther
  deriving DecidableEq, Repr

/-- The capitalization re-application at a hit: `text.isupper()` uppercases
the whole stored value; else an uppercase first character of `text`
uppercases only the first character.  The two subscript accesses `text[0]`
and `zulu_translation[0]` are embedded as checked accesses that raise
`IndexError` on an empty string. -/
def applyCaps (text z : String) : Except String (Option String) :=
  if pyIsUpperStr text then .ok (some (pyUpper z))
  else
    match text.data with
    | [] => .error "IndexError"
    | c :: _ =>
      if c.isUpper then
        match z.data with
        | [] => .error "IndexError"
        | zc :: zrest => .ok (some ⟨zc.toUpper :: zrest⟩)
      else .ok (some z)

/-- The probe loop of `get_exact_match`: try each variant in generation
order, returning the first hit with capitalization re-applied. -/
def probeVariants (text : String) : List String → Except String (Option String)
  | [] => .ok none
  | v :: rest =>
    match lookupTerm v with
    | some z => applyCaps text z
    | none => probeVariants text rest

/-- `DictionaryDatabase.get_exact_match(text)`: `None`, non-strings and the
empty string return absent before any probe; otherwise the text is
lowercased and stripped, its variants are probed in order, and a hit is
returned with capitalization re-applied. -/
def get_exact_match (v : PyVal) : Except String (Option String) :=
  match v with
  | .vNone => .ok none
  | .vOther => .ok none
  | .vStr text =>
    if text = "" then .ok none
    else probeVariants text (variantsOf (pyStrip (pyLower text)))

/-- Spec-side characterization of the raw (pre-capitalization) term-store
hit: the first variant, in generation order, with a stored entry. -/
def rawLookup (text : String) : Option String :=
  (variantsOf (pyStrip (pyLower text))).findSome? lookupTerm

/-- First character uppercased (the `zulu_translation[0].upper() +
zulu_translation[1:]` transform on a nonempty value). -/
def capFirstStr (z : String) : String :=
  match z.data with
  | [] => z
  | c :: r => ⟨c.toUpper :: r⟩

/-- The capitalization policy of §4.2 of the spec, as a total function:
fully-uppercase input uppercases the result; an uppercase first character
uppercases only the result's first character; otherwise the stored value
is returned unmodified. -/
def capPolicy (text z : String) : String :=
  if pyIsUpperStr text then pyUpper z
  else
    match text.data, z.data with
    | c :: _, zc :: zrest => if c.isUpper then ⟨zc.toUpper :: zrest⟩ else z
    | _, _ => z

/-! ## Similarity Cache (`src/core/memory.py`) -/

/-- The metadata stored with every memory record by `store_translation`. -/
structure MemRecordMeta where
  input : String
  output : String
  source_lang : String
  target_lang : String
  session_id : String
  timestamp : String
  deriving DecidableEq, Repr

/-- One ranked candidate returned by the nearest-neighbor index query
(`translation_collection.query`): id, metadata and distance. -/
structure Candidate where
  id : String
  meta : MemRecordMeta
  distance : ℚ
  deriving DecidableEq, Repr

/-- The single equality filter pushed into the index query
(`where=` clause). -/
inductive WhereFilter where
  | byTargetLang (t : String)
  | bySessionId (s : String)
  deriving DecidableEq, Repr

/-- Python truthiness of an optional string argument (`if target_lang:`);
`None` and the empty string are falsy. -/
def pyTruthy : Option String → Bool
  | none => false
  | some s => s ≠ ""

/-- The filter-selection logic of `find_similar`: `target_lang` wins when
truthy, else `session_id` when truthy, else no filter. -/
def mkWhereFilter (targetLang sessionId : Option String) : Option WhereFilter :=
  if pyTruthy targetLang then some (.byTargetLang (targetLang.getD ""))
  else if pyTruthy sessionId then some (.bySessionId (sessionId.getD ""))
  else none

/-- One entry of the list returned by `find_similar`. -/
structure FoundMatch where
  id : String
  input : String
  output : String
  source_lang : String
  target_lang : String
  similarity : ℚ
  timestamp : String
  deriving DecidableEq, Repr

/-- `TranslationMemory.find_similar(query_text, target_lang, session_id,
limit)`.  The external vector index is the oracle `queryIdx`, taking the
query text, the single pushed filter and `n_results`; every candidate it
returns carries a distance (the code's `0.5` default never fires when
distances are included).  The remaining filter is applied client-side by
discarding non-matching candidates, then the list is truncated to `limit`. -/
def find_similar (queryIdx : String → Option WhereFilter → Nat → List Candidate)
    (queryText : String) (targetLang sessionId : Option String) (limit : Nat) :
    List FoundMatch :=
  let wf := mkWhereFilter targetLang sessionId
  let cands := queryIdx queryText wf limit
  let filtered := cands.filter (fun c =>
    !(pyTruthy targetLang && c.meta.target_lang != targetLang.getD "") &&
    !(pyTruthy sessionId && c.meta.session_id != sessionId.getD ""))
  (filtered.map (fun c =>
    ⟨c.id, c.meta.input, c.meta.output, c.meta.source_lang, c.meta.target_lang,
     1 - c.distance, c.meta.timestamp⟩)).take limit

/-! ## Resolver (`src/core/agent.py`, `AgenticTranslator.translate`) -/

/-- A pipeline stage whose component is actually invoked during a
resolution, in invocation order (validation always runs and is not
traced). -/
inductive Stage where
  | dictionary
  | memory
  | api
  | store
  deriving DecidableEq, Repr

/-- One element of the list `memory.find_similar` returns to the resolver,
seen through the fields the resolver reads (`similarity`, `output`). -/
structure MemEntry where
  input : String
  output : String
  similarity : ℚ
  deriving DecidableEq, Repr

/-- The resolver's return dictionary: either the validation-error dict or
a result dict (the constant `session_id` and the pass-through `validation`
payload are omitted). -/
inductive TransReturn where
  | err (errors : List VError)
  | res (translation source quality : String) (confidence : ℚ)
  deriving DecidableEq, Repr

/-- What one call to `translate` produces: the returned dictionary (or a
raised exception as `.error`), the new `request_count`, and the trace of
stages whose component was invoked. -/
structure TransOutcome where
  result : Except String TransReturn
  request_count : Nat
  stages : List Stage
  deriving DecidableEq, Repr

/-- Reading `output_validation["score"]` and building the result dict;
a missing `"score"` key raises `KeyError`. -/
def mkResult (assessment : OutputAssessment) (translation source : String) :
    Except String TransReturn :=
  match assessment.score with
  | none => .error "KeyError: score"
  | some sc => .ok (.res translation source assessment.quality sc)

/-- Stages 4–5 of `translate`: `_translate_api` (which increments
`request_count` before anything else), the genuineness check
(`api_translation and api_translation.lower() != cleaned_text.lower()`),
the store into memory on a genuine result, and the passthrough fallback.
`apiOracle` is the value `_translate_api` returns (absent on any transport
or parse failure). -/
def providerAndOn (count : Nat) (memAvailable : Bool) (apiOracle : Option String)
    (cleaned : String) (sts : List Stage) : TransOutcome :=
  match apiOracle with
  | some apiT =>
    if apiT ≠ "" && pyLower apiT ≠ pyLower cleaned then
      ⟨mkResult (validate_output cleaned apiT "api") apiT "api", count + 1,
        if memAvailable then (sts ++ [Stage.api]) ++ [Stage.store] else sts ++ [Stage.api]⟩
    else
      ⟨mkResult (validate_output cleaned cleaned "none") cleaned "none", count + 1,
        sts ++ [Stage.api]⟩
  | none =>
    ⟨mkResult (validate_output cleaned cleaned "none") cleaned "none", count + 1,
      sts ++ [Stage.api]⟩

/-- Stage 3 of `translate`: the memory lookup, run whenever the resolver
holds a memory component (`if self.memory:`).  `memOracle` is what
`self.memory.find_similar(cleaned_text, target_lang=target_lang, limit=3)`
does: a list of entries, or `.error` when it raised (the surrounding
`try/except` demotes that to a miss).  The top entry is accepted only when
its similarity strictly exceeds `0.7`, with the similarity itself as the
returned confidence. -/
def memoryAndOn (count : Nat) (memAvailable : Bool) (memOracle : Except Unit (List MemEntry))
    (apiOracle : Option String) (cleaned : String) : TransOutcome :=
  if memAvailable then
    match memOracle with
    | .error _ => providerAndOn count memAvailable apiOracle cleaned [.dictionary, .memory]
    | .ok [] => providerAndOn count memAvailable apiOracle cleaned [.dictionary, .memory]
    | .ok (best :: _) =>
      if best.similarity > mkRat 7 10 then
        ⟨.ok (.res best.output "memory"
              (validate_output cleaned best.output "memory").quality best.similarity),
         count, [.dictionary, .memory]⟩
      else providerAndOn count memAvailable apiOracle cleaned [.dictionary, .memory]
  else providerAndOn count memAvailable apiOracle cleaned [.dictionary]

/-- `AgenticTranslator.translate(text, target_lang)`: validate, then
dictionary exact match, then memory, then provider, then passthrough.
`count` is the resolver's `request_count` on entry; `memAvailable` is
whether `self.memory` is non-`None`; the two oracles stand for the
external collaborators.  The signature has no cache opt-out parameter. -/
def AgenticTranslator.translate (count : Nat) (memAvailable : Bool)
    (memOracle : Except Unit (List MemEntry))
    (apiOracle : Option String) (text targetLang : String) : TransOutcome :=
  let vr := validate_input text targetLang
  if !vr.is_valid then
    ⟨.ok (.err vr.errors), count, []⟩
  else
    let cleaned := vr.sanitized_text
    match get_exact_match (.vStr cleaned) with
    | .error e => ⟨.error e, count, [.dictionary]⟩
    | .ok (some dictT) =>
      if dictT ≠ "" then
        ⟨mkResult (validate_output cleaned dictT "dictionary") dictT "dictionary",
         count, [.dictionary]⟩
      else memoryAndOn count memAvailable memOracle apiOracle cleaned
    | .ok none => memoryAndOn count memAvailable memOracle apiOracle cleaned

/-! ## Session Pool (`src/api/main.py`, `_get_or_create_session`) -/

/-- Pop the first key that is not the default session id (the eviction
loop `for k in list(sessions.keys()): if k != DEFAULT_SESSION_ID:
sessions.pop(k); break`); when every key is the default, nothing is
removed. -/
def evictFirstNonDefault (defId : String) : List String → List String
  | [] => []
  | k :: rest => if k ≠ defId then rest else k :: evictFirstNonDefault defId rest

/-- `_get_or_create_session` on the registry's key sequence (an
`OrderedDict` in access order, least recently used first): an existing id
moves to the most-recently-used end; a new id first evicts the first
non-default key when the registry is at or above `maxSessions`. -/
def getOrCreate (maxSessions : Nat) (defId : String) (s : List String) (sid : String) :
    List String :=
  if sid ∈ s then s.erase sid ++ [sid]
  else
    (if s.length ≥ maxSessions then evictFirstNonDefault defId s else s) ++ [sid]

/-! ## The `/translate` route's call into the resolver (`src/api/main.py`) -/

/-- The parameters `AgenticTranslator.translate` accepts by keyword. -/
def translateKwargNames : List String := ["text", "target_lang"]

/-- The keyword arguments the `/translate` route passes in
`agent.translate(text=..., target_lang=..., source_lang=...,
use_memory=request.use_memory)`. -/
def apiTranslateCallKwargs : List String :=
  ["text", "target_lang", "source_lang", "use_memory"]

/-- Python call semantics: a keyword argument not matching any parameter
raises `TypeError`. -/
def pyCallRaisesTypeError (accepted passed : List String) : Bool :=
  passed.any (fun k => !accepted.contains k)

/-! ## Helper lemmas -/

set_option maxRecDepth 100000

theorem data_ne_nil_of_ne_empty {s : String} (h : s ≠ "") : s.data ≠ [] := by
  intro hd
  apply h
  cases s with
  | mk d =>
    simp only [String.data] at hd
    subst hd
    rfl

theorem pyUpper_ne_empty {z : String} (h : z ≠ "") : pyUpper z ≠ "" := by
  intro he
  apply h
  have hd : (pyUpper z).data = [] := by rw [he]
  simp only [pyUpper, List.map_eq_nil_iff] at hd
  cases z with
  | mk d =>
    simp only [String.data] at hd
    subst hd
    rfl

theorem capFirstStr_ne_empty {z : String} (h : z ≠ "") : capFirstStr z ≠ "" := by
  intro he
  cases hd : z.data with
  | nil => exact data_ne_nil_of_ne_empty h hd
  | cons c r =>
    rw [capFirstStr, hd] at he
    have := congrArg String.data he
    simp at this

theorem capPolicy_cases (t z : String) :
    capPolicy t z = z ∨ capPolicy t z = pyUpper z ∨ capPolicy t z = capFirstStr z := by
  unfold capPolicy capFirstStr
  by_cases h : pyIsUpperStr t
  · simp [h]
  · simp only [h, if_false]
    cases t.data with
    | nil => left; rfl
    | cons c cs =>
      cases hz : z.data with
      | nil => left; rfl
      | cons zc zr =>
        by_cases hu : zc.toUpper = zc
        · by_cases hcu : c.isUpper <;> simp [hcu, hz]
        · by_cases hcu : c.isUpper <;> simp [hcu, hz]

theorem capPolicy_ne_empty {z : String} (t : String) (h : z ≠ "") : capPolicy t z ≠ "" := by
  rcases capPolicy_cases t z with hc | hc | hc <;> rw [hc]
  · exact h
  · exact pyUpper_ne_empty h
  · exact capFirstStr_ne_empty h

theorem applyCaps_eq_policy (text z : String) (ht : text ≠ "") (hz : z ≠ "") :
    applyCaps text z = .ok (some (capPolicy text z)) := by
  unfold applyCaps capPolicy
  by_cases h : pyIsUpperStr text
  · simp [h]
  · simp only [h, if_false]
    cases htd : text.data with
    | nil => exact absurd htd (data_ne_nil_of_ne_empty ht)
    | cons c cs =>
      cases hzd : z.data with
      | nil => exact absurd hzd (data_ne_nil_of_ne_empty hz)
      | cons zc zr => by_cases hu : c.isUpper <;> simp [hu]

/-- All 274 stored values of the seed table are nonempty and, under each of
the three capitalization transforms, free of placeholder markers. -/
theorem dictValuesClean : dictTerms.all (fun p =>
    !(p.2 == "") && !hasPlaceholder p.2 && !hasPlaceholder (pyUpper p.2) &&
    !hasPlaceholder (capFirstStr p.2)) = true := by decide

theorem lookupTerm_mem_values {k z : String} (h : lookupTerm k = some z) :
    z ∈ dictTerms.map Prod.snd := by
  unfold lookupTerm at h
  rcases Option.map_eq_some'.mp h with ⟨p, hp, rfl⟩
  exact List.mem_map_of_mem _ (List.mem_reverse.mp (List.mem_of_find?_eq_some hp))

theorem dictValue_props {z : String} (h : z ∈ dictTerms.map Prod.snd) :
    z ≠ "" ∧ hasPlaceholder z = false ∧ hasPlaceholder (pyUpper z) = false ∧
      hasPlaceholder (capFirstStr z) = false := by
  rcases List.mem_map.mp h with ⟨p, hp, rfl⟩
  have := List.all_eq_true.mp dictValuesClean p hp
  simp only [Bool.and_eq_true, Bool.not_eq_true', beq_eq_false_iff_ne] at this
  exact ⟨this.1.1.1, this.1.1.2, this.1.2, this.2⟩

theorem hasPlaceholder_capPolicy {z : String} (t : String)
    (h : z ∈ dictTerms.map Prod.snd) : hasPlaceholder (capPolicy t z) = false := by
  obtain ⟨-, h1, h2, h3⟩ := dictValue_props h
  rcases capPolicy_cases t z with hc | hc | hc <;> rw [hc] <;> assumption

theorem probeVariants_eq_raw (text : String) (ht : text ≠ "") (l : List String) :
    probeVariants text l = .ok ((l.findSome? lookupTerm).map (capPolicy text)) := by
  induction l with
  | nil => rfl
  | cons v rest ih =>
    simp only [probeVariants, List.findSome?]
    cases hz : lookupTerm v with
    | some z =>
      have hzv := (dictValue_props (lookupTerm_mem_values hz)).1
      simp [applyCaps_eq_policy text z ht hzv]
    | none => simpa using ih

/-- `get_exact_match` on a nonempty string is exactly: raw term-store
lookup over the generated variants, with the spec's capitalization policy
applied to a hit. -/
theorem get_exact_match_eq_raw (text : String) (ht : text ≠ "") :
    get_exact_match (.vStr text) =
      .ok ((rawLookup text).map (capPolicy text)) := by
  simp only [get_exact_match, rawLookup, if_neg ht]
  exact probeVariants_eq_raw text ht _

theorem validate_output_dictionary_spec (s v : String) (hv : v ≠ "")
    (hp : hasPlaceholder v = false) :
    (validate_output s v "dictionary").quality = "high" ∧
    (validate_output s v "dictionary").score = some (mkRat 19 20) := by
  simp only [validate_output, if_neg hv, hp]
  split
  · rename_i h
    simp at h
  · exact ⟨rfl, rfl⟩

theorem validate_output_score_isSome (s t st : String) (ht : t ≠ "")
    (h2 : ¬(st = "api" ∧ pyLower t = pyLower s)) :
    ∃ sc, (validate_output s t st).score = some sc := by
  simp only [validate_output, if_neg ht]
  split
  · rename_i h
    simp only [decide_eq_true_eq, Bool.and_eq_true] at h
    exact absurd ⟨h.1, h.2⟩ h2
  · split
    · exact ⟨_, rfl⟩
    · exact ⟨_, rfl⟩

theorem mkResult_eq_ok {a : OutputAssessment} {tr src t s q : String} {c : ℚ}
    (h : mkResult a tr src = .ok (.res t s q c)) :
    t = tr ∧ s = src ∧ q = a.quality ∧ a.score = some c := by
  unfold mkResult at h
  cases hs : a.score with
  | none => rw [hs] at h; exact absurd h (by simp)
  | some sc =>
    rw [hs] at h
    have h1 := Except.ok.inj h
    injection h1 with e1 e2 e3 e4
    exact ⟨e1.symm, e2.symm, e3.symm, congrArg some e4⟩

theorem providerAndOn_spec (count : Nat) (memA : Bool) (apiO : Option String)
    (cleaned : String) (sts : List Stage) :
    (providerAndOn count memA apiO cleaned sts).request_count = count + 1 ∧
    Stage.api ∈ (providerAndOn count memA apiO cleaned sts).stages ∧
    ∀ t s q c, (providerAndOn count memA apiO cleaned sts).result = .ok (.res t s q c) →
      s = "api" ∨ s = "none" := by
  refine ⟨?_, ?_, ?_⟩
  · cases apiO with
    | none => rfl
    | some apiT =>
      simp only [providerAndOn]
      split <;> rfl
  · cases apiO with
    | none => simp [providerAndOn]
    | some apiT =>
      simp only [providerAndOn]
      split
      · split <;> simp
      · simp
  · intro t s q c h
    cases apiO with
    | none => exact Or.inr (mkResult_eq_ok h).2.1
    | some apiT =>
      simp only [providerAndOn] at h
      split at h
      · exact Or.inl (mkResult_eq_ok h).2.1
      · exact Or.inr (mkResult_eq_ok h).2.1

theorem providerAndOn_passthrough (count : Nat) (memA : Bool) (apiO : Option String)
    (cleaned : String) (sts : List Stage)
    (ha : apiO = none ∨ apiO = some "" ∨ ∃ s, apiO = some s ∧ pyLower s = pyLower cleaned) :
    (providerAndOn count memA apiO cleaned sts).result =
      mkResult (validate_output cleaned cleaned "none") cleaned "none" := by
  rcases ha with rfl | rfl | ⟨s, rfl, hl⟩ <;> simp [providerAndOn, *]

theorem memoryAndOn_cases (count : Nat) (memA : Bool) (memO : Except Unit (List MemEntry))
    (apiO : Option String) (cleaned : String) :
    (∃ best : MemEntry, memoryAndOn count memA memO apiO cleaned =
      ⟨.ok (.res best.output "memory"
          (validate_output cleaned best.output "memory").quality best.similarity),
        count, [.dictionary, .memory]⟩) ∨
    (∃ sts, (sts = [Stage.dictionary] ∨ sts = [Stage.dictionary, Stage.memory]) ∧
      memoryAndOn count memA memO apiO cleaned = providerAndOn count memA apiO cleaned sts) := by
  cases memA with
  | false =>
    refine Or.inr ⟨[Stage.dictionary], Or.inl rfl, ?_⟩
    simp [memoryAndOn]
  | true =>
    cases memO with
    | error e =>
      refine Or.inr ⟨[Stage.dictionary, Stage.memory], Or.inr rfl, ?_⟩
      simp [memoryAndOn]
    | ok results =>
      cases results with
      | nil =>
        refine Or.inr ⟨[Stage.dictionary, Stage.memory], Or.inr rfl, ?_⟩
        simp [memoryAndOn]
      | cons best rest =>
        by_cases hs : best.similarity > mkRat 7 10
        · refine Or.inl ⟨best, ?_⟩
          simp only [memoryAndOn, if_pos hs]
          simp
        · refine Or.inr ⟨[Stage.dictionary, Stage.memory], Or.inr rfl, ?_⟩
          simp only [memoryAndOn, if_neg hs]
          simp

theorem translate_cases (count : Nat) (memA : Bool) (memO : Except Unit (List MemEntry))
    (apiO : Option String) (text tl : String) :
    (∃ errs, AgenticTranslator.translate count memA memO apiO text tl =
        ⟨.ok (.err errs), count, []⟩) ∨
    (∃ e, AgenticTranslator.translate count memA memO apiO text tl =
        ⟨.error e, count, [.dictionary]⟩) ∨
    (∃ v, AgenticTranslator.translate count memA memO apiO text tl =
        ⟨mkResult (validate_output (validate_input text tl).sanitized_text v "dictionary")
            v "dictionary", count, [.dictionary]⟩) ∨
    (∃ best : MemEntry, AgenticTranslator.translate count memA memO apiO text tl =
        ⟨.ok (.res best.output "memory"
            (validate_output (validate_input text tl).sanitized_text best.output
                "memory").quality best.similarity),
          count, [.dictionary, .memory]⟩) ∨
    (∃ sts, (sts = [Stage.dictionary] ∨ sts = [Stage.dictionary, Stage.memory]) ∧
      AgenticTranslator.translate count memA memO apiO text tl =
        providerAndOn count memA apiO (validate_input text tl).sanitized_text sts) := by
  simp only [AgenticTranslator.translate]
  split
  · exact Or.inl ⟨_, rfl⟩
  · split
    · exact Or.inr (Or.inl ⟨_, rfl⟩)
    · rename_i dictT heq
      split
      · exact Or.inr (Or.inr (Or.inl ⟨dictT, rfl⟩))
      · rcases memoryAndOn_cases count memA memO apiO (validate_input text tl).sanitized_text
          with ⟨best, hb⟩ | ⟨sts, hsts, hp⟩
        · exact Or.inr (Or.inr (Or.inr (Or.inl ⟨best, hb⟩)))
        · exact Or.inr (Or.inr (Or.inr (Or.inr ⟨sts, hsts, hp⟩)))
    · rcases memoryAndOn_cases count memA memO apiO (validate_input text tl).sanitized_text
        with ⟨best, hb⟩ | ⟨sts, hsts, hp⟩
      · exact Or.inr (Or.inr (Or.inr (Or.inl ⟨best, hb⟩)))
      · exact Or.inr (Or.inr (Or.inr (Or.inr ⟨sts, hsts, hp⟩)))

/-! ## Claim theorems -/

/-- C9: for every request whose text is empty or whitespace-only,
validation fails with a non-empty error list and `translate` terminates
with the structured validation error, with `request_count` unchanged and
no lookup stage invoked (the dictionary, memory and provider oracles are
universally quantified and the stage trace is empty). -/
theorem claim_C9_empty_input_gate (count : Nat) (memA : Bool)
    (memO : Except Unit (List MemEntry)) (apiO : Option String) (text tl : String)
    (hw : text.data.all pyIsSpace = true) :
    AgenticTranslator.translate count memA memO apiO text tl =
      ⟨.ok (.err [.emptyText]), count, []⟩ ∧
    (validate_input text tl).is_valid = false ∧
    (validate_input text tl).errors ≠ [] := by
  have hv : validate_input text tl = ⟨false, text, [.emptyText]⟩ := by
    unfold validate_input
    rw [if_pos hw]
  refine ⟨?_, by rw [hv], by rw [hv]; simp⟩
  simp only [AgenticTranslator.translate, hv]
  rfl

/-- C9 witness: the empty string with target language `zu`. -/
theorem claim_C9_empty_input_gate_witness :
    AgenticTranslator.translate 0 false (.ok []) none "" "zu" =
      ⟨.ok (.err [.emptyText]), 0, []⟩ ∧
    (validate_input "" "zu").is_valid = false ∧
    (validate_input "" "zu").errors ≠ [] :=
  claim_C9_empty_input_gate 0 false (.ok []) none "" "zu" (by decide)

/-- C10: `get_exact_match` never raises — for every input (`None`, a
non-string, or any string) it returns a value, and for `None`, non-strings
and the empty string that value is absent; in particular the checked
`text[0]` / `zulu_translation[0]` accesses never hit an empty string. -/
theorem claim_C10_exact_match_total (v : PyVal) :
    (∃ r, get_exact_match v = .ok r) ∧
    ((v = .vNone ∨ v = .vOther ∨ v = .vStr "") → get_exact_match v = .ok none) := by
  constructor
  · cases v with
    | vNone => exact ⟨none, rfl⟩
    | vOther => exact ⟨none, rfl⟩
    | vStr s =>
      by_cases hs : s = ""
      · subst hs
        exact ⟨none, rfl⟩
      · exact ⟨_, get_exact_match_eq_raw s hs⟩
  · rintro (rfl | rfl | rfl) <;> rfl

/-- C10 witness: `None` yields absent; a real string yields a value. -/
theorem claim_C10_exact_match_total_witness :
    get_exact_match .vNone = .ok none ∧
    ∃ r, get_exact_match (.vStr "workshop") = .ok r :=
  ⟨(claim_C10_exact_match_total .vNone).2 (Or.inl rfl),
   (claim_C10_exact_match_total (.vStr "workshop")).1⟩

/-- C2: whenever validation passes and the term store has a normalized key
match for the sanitized text, `translate` terminates at the dictionary
stage with `source = dictionary`, `quality = high`, confidence `0.95`, and
the returned value is the stored value under the capitalization policy
(fully-uppercase input uppercases everything, an uppercase first character
uppercases only the first character, anything else is returned as
stored). -/
theorem claim_C2_dictionary_hit (count : Nat) (memA : Bool)
    (memO : Except Unit (List MemEntry)) (apiO : Option String)
    (text tl cleaned z : String)
    (hv : validate_input text tl = ⟨true, cleaned, []⟩)
    (hz : rawLookup cleaned = some z) :
    AgenticTranslator.translate count memA memO apiO text tl =
      ⟨.ok (.res (capPolicy cleaned z) "dictionary" "high" (mkRat 19 20)),
        count, [.dictionary]⟩ := by
  have hne : cleaned ≠ "" := by
    intro h
    rw [h] at hz
    have hz0 : rawLookup "" = none := by decide
    rw [hz0] at hz
    exact Option.noConfusion hz
  have hzv : z ∈ dictTerms.map Prod.snd := by
    have hz2 : (variantsOf (pyStrip (pyLower cleaned))).findSome? lookupTerm = some z := hz
    obtain ⟨v, hvm, hvk⟩ := List.exists_of_findSome?_eq_some hz2
    exact lookupTerm_mem_values hvk
  have hzne := (dictValue_props hzv).1
  have hcne := capPolicy_ne_empty cleaned hzne
  have hgm : get_exact_match (.vStr cleaned) = .ok (some (capPolicy cleaned z)) := by
    rw [get_exact_match_eq_raw cleaned hne, hz]
    rfl
  obtain ⟨hq, hsc⟩ := validate_output_dictionary_spec cleaned (capPolicy cleaned z) hcne
    (hasPlaceholder_capPolicy cleaned hzv)
  simp only [AgenticTranslator.translate, hv, hgm]
  rw [if_neg (by simp), if_pos hcne]
  simp [mkResult, hsc, hq]

/-- C2 witness: `"Workshop"` (uppercase first letter) hits the stored key
`workshop` and comes back first-letter-uppercased with `high`/`0.95`. -/
theorem claim_C2_dictionary_hit_witness :
    AgenticTranslator.translate 0 false (.ok []) none "Workshop" "zu" =
      ⟨.ok (.res (capPolicy "Workshop" "inkuthazakwenza") "dictionary" "high" (mkRat 19 20)),
        0, [.dictionary]⟩ :=
  claim_C2_dictionary_hit 0 false (.ok []) none "Workshop" "zu" "Workshop" "inkuthazakwenza"
    (by decide) (by decide)

theorem mkResult_ne_err (a : OutputAssessment) (tr src : String) (errs : List VError) :
    mkResult a tr src ≠ .ok (.err errs) := by
  unfold mkResult
  cases a.score <;> simp

theorem providerAndOn_result_shape (count : Nat) (memA : Bool) (apiO : Option String)
    (cleaned : String) (sts : List Stage) :
    ∃ a tr src, (providerAndOn count memA apiO cleaned sts).result = mkResult a tr src := by
  cases apiO with
  | none => exact ⟨_, _, _, rfl⟩
  | some apiT =>
    simp only [providerAndOn]
    split <;> exact ⟨_, _, _, rfl⟩

/-- C1: with validation passed, a dictionary miss and a nonempty memory
result list, the top match is accepted iff its similarity strictly exceeds
`0.7`: on acceptance the pipeline terminates at the memory stage with
`source = memory` and confidence equal to the similarity itself (not the
scorer's generic score); otherwise it falls through to the provider stage;
and any memory-sourced result carries the similarity as confidence and
implies the strict threshold held. -/
theorem claim_C1_memory_threshold (count : Nat) (best : MemEntry) (rest : List MemEntry)
    (apiO : Option String) (text tl cleaned : String)
    (hv : validate_input text tl = ⟨true, cleaned, []⟩)
    (hd : get_exact_match (.vStr cleaned) = .ok none) :
    (best.similarity > mkRat 7 10 →
      AgenticTranslator.translate count true (.ok (best :: rest)) apiO text tl =
        ⟨.ok (.res best.output "memory"
            (validate_output cleaned best.output "memory").quality best.similarity),
          count, [.dictionary, .memory]⟩) ∧
    (¬best.similarity > mkRat 7 10 →
      AgenticTranslator.translate count true (.ok (best :: rest)) apiO text tl =
        providerAndOn count true apiO cleaned [.dictionary, .memory] ∧
      Stage.api ∈
        (AgenticTranslator.translate count true (.ok (best :: rest)) apiO text tl).stages) ∧
    (∀ t q c,
      (AgenticTranslator.translate count true (.ok (best :: rest)) apiO text tl).result =
          .ok (.res t "memory" q c) →
      c = best.similarity ∧ best.similarity > mkRat 7 10) := by
  have htr : AgenticTranslator.translate count true (.ok (best :: rest)) apiO text tl =
      memoryAndOn count true (.ok (best :: rest)) apiO cleaned := by
    simp only [AgenticTranslator.translate, hv, hd]
    rfl
  refine ⟨?_, ?_, ?_⟩
  · intro hs
    rw [htr]
    simp only [memoryAndOn, if_pos hs]
    simp
  · intro hs
    have h1 : AgenticTranslator.translate count true (.ok (best :: rest)) apiO text tl =
        providerAndOn count true apiO cleaned [.dictionary, .memory] := by
      rw [htr]
      simp only [memoryAndOn, if_neg hs]
      simp
    refine ⟨h1, ?_⟩
    rw [h1]
    exact (providerAndOn_spec count true apiO cleaned [.dictionary, .memory]).2.1
  · intro t q c h
    by_cases hs : best.similarity > mkRat 7 10
    · rw [htr] at h
      simp only [memoryAndOn, if_pos hs] at h
      simp only [if_true] at h
      have h2 := Except.ok.inj h
      injection h2 with e1 e2 e3 e4
      exact ⟨e4.symm, hs⟩
    · exfalso
      rw [htr] at h
      simp only [memoryAndOn, if_neg hs] at h
      simp only [if_true] at h
      rcases (providerAndOn_spec count true apiO cleaned
          [.dictionary, .memory]).2.2 t "memory" q c h with h' | h' <;> simp at h'

/-- C1 witness: similarity exactly `0.70` is a miss (the provider stage
runs); `0.71` is accepted with confidence `0.71`. -/
theorem claim_C1_memory_threshold_witness :
    AgenticTranslator.translate 0 true (.ok [⟨"hi", "sawubona", mkRat 71 100⟩]) none
        "hello" "zu" =
      ⟨.ok (.res "sawubona" "memory"
          (validate_output "hello" "sawubona" "memory").quality (mkRat 71 100)),
        0, [.dictionary, .memory]⟩ ∧
    (AgenticTranslator.translate 0 true (.ok [⟨"hi", "sawubona", mkRat 7 10⟩]) none
        "hello" "zu" =
      providerAndOn 0 true none "hello" [.dictionary, .memory] ∧
    Stage.api ∈ (AgenticTranslator.translate 0 true (.ok [⟨"hi", "sawubona", mkRat 7 10⟩])
        none "hello" "zu").stages) :=
  ⟨(claim_C1_memory_threshold 0 ⟨"hi", "sawubona", mkRat 71 100⟩ [] none "hello" "zu" "hello"
      (by decide) (by decide)).1 (by decide),
   (claim_C1_memory_threshold 0 ⟨"hi", "sawubona", mkRat 7 10⟩ [] none "hello" "zu" "hello"
      (by decide) (by decide)).2.1 (by decide)⟩

/-- C4 counterexample: one completed resolution (a dictionary hit on
`"workshop"`) leaves `request_count` at 0, not 1 — the counter is not
incremented once per completed resolution. -/
theorem claim_C4_counterexample :
    (AgenticTranslator.translate 0 false (.ok []) none "workshop" "zu").result =
      .ok (.res "inkuthazakwenza" "dictionary" "high" (mkRat 19 20)) ∧
    (AgenticTranslator.translate 0 false (.ok []) none "workshop" "zu").request_count = 0 := by
  decide

/-- C4 amended: `request_count` is incremented exactly once per resolution
that reaches the provider-fallback call (`_translate_api`), and is
unchanged for validation failures, dictionary hits and memory hits. -/
theorem claim_C4_amended (count : Nat) (memA : Bool) (memO : Except Unit (List MemEntry))
    (apiO : Option String) (text tl : String) :
    (Stage.api ∈ (AgenticTranslator.translate count memA memO apiO text tl).stages →
      (AgenticTranslator.translate count memA memO apiO text tl).request_count = count + 1) ∧
    (Stage.api ∉ (AgenticTranslator.translate count memA memO apiO text tl).stages →
      (AgenticTranslator.translate count memA memO apiO text tl).request_count = count) ∧
    (∀ errs,
      (AgenticTranslator.translate count memA memO apiO text tl).result = .ok (.err errs) →
      (AgenticTranslator.translate count memA memO apiO text tl).stages = []) ∧
    (∀ t q c,
      ((AgenticTranslator.translate count memA memO apiO text tl).result =
          .ok (.res t "dictionary" q c) ∨
       (AgenticTranslator.translate count memA memO apiO text tl).result =
          .ok (.res t "memory" q c)) →
      Stage.api ∉ (AgenticTranslator.translate count memA memO apiO text tl).stages) := by
  rcases translate_cases count memA memO apiO text tl with
    ⟨errs, he⟩ | ⟨e, he⟩ | ⟨v, he⟩ | ⟨best, he⟩ | ⟨sts, hsts, he⟩
  · rw [he]
    exact ⟨fun h => by simp at h, fun _ => rfl, fun _ _ => rfl, fun t q c _ => by simp⟩
  · rw [he]
    refine ⟨fun h => by simp at h, fun _ => rfl, fun errs h => by simp at h, ?_⟩
    rintro t q c (h | h) <;> simp at h
  · rw [he]
    refine ⟨fun h => by simp at h, fun _ => rfl, ?_, fun t q c _ => by simp⟩
    intro errs h
    exact absurd h (mkResult_ne_err _ _ _ _)
  · rw [he]
    refine ⟨fun h => by simp at h, fun _ => rfl, fun errs h => by simp at h,
      fun t q c _ => by simp⟩
  · rw [he]
    obtain ⟨hc, hmem, hsrc⟩ := providerAndOn_spec count memA apiO
      (validate_input text tl).sanitized_text sts
    refine ⟨fun _ => hc, fun h => absurd hmem h, ?_, ?_⟩
    · intro errs h
      obtain ⟨a, tr, src, hshape⟩ := providerAndOn_result_shape count memA apiO
        (validate_input text tl).sanitized_text sts
      rw [hshape] at h
      exact absurd h (mkResult_ne_err _ _ _ _)
    · rintro t q c (h | h) <;>
        rcases hsrc t _ q c h with h' | h' <;> simp at h'

/-- C4 amended witness: a dictionary hit leaves the counter unchanged; the
same resolver falling through to the provider increments it once. -/
theorem claim_C4_amended_witness :
    (AgenticTranslator.translate 0 false (.ok []) none "workshop" "zu").request_count = 0 ∧
    (AgenticTranslator.translate 0 false (.ok []) none "hello" "zu").request_count = 0 + 1 :=
  ⟨(claim_C4_amended 0 false (.ok []) none "workshop" "zu").2.1 (by decide),
   (claim_C4_amended 0 false (.ok []) none "hello" "zu").1 (by decide)⟩

/-- C5 counterexample: `"<br>"` passes validation (sanitizing to the empty
string), the dictionary misses, memory is unavailable and the provider
returns nothing — and `translate` raises `KeyError` while reading the
absent `"score"` key of the scorer's empty-candidate assessment, instead
of terminating with a passthrough result. -/
theorem claim_C5_counterexample :
    (validate_input "<br>" "zu").is_valid = true ∧
    (AgenticTranslator.translate 0 false (.ok []) none "<br>" "zu").result =
      .error "KeyError: score" := by
  decide

/-- C5 amended: for every validated input whose sanitized text is
*nonempty*, if the dictionary misses, the memory stage misses or its
dependency fails, and the provider returns nothing or a value
case-insensitively identical to the sanitized input, `translate` still
terminates with a result: the sanitized input itself with
`source = none`. -/
theorem claim_C5_amended (count : Nat) (memA : Bool) (memO : Except Unit (List MemEntry))
    (apiO : Option String) (text tl cleaned : String)
    (hv : validate_input text tl = ⟨true, cleaned, []⟩)
    (hne : cleaned ≠ "")
    (hd : get_exact_match (.vStr cleaned) = .ok none)
    (hm : memA = false ∨ memO = .error () ∨ memO = .ok [] ∨
      ∃ best rest, memO = .ok (best :: rest) ∧ ¬best.similarity > mkRat 7 10)
    (ha : apiO = none ∨ apiO = some "" ∨ ∃ s, apiO = some s ∧ pyLower s = pyLower cleaned) :
    ∃ q sc, (AgenticTranslator.translate count memA memO apiO text tl).result =
      .ok (.res cleaned "none" q sc) := by
  have htr : AgenticTranslator.translate count memA memO apiO text tl =
      memoryAndOn count memA memO apiO cleaned := by
    simp only [AgenticTranslator.translate, hv, hd]
    rfl
  have hprov : ∃ sts, memoryAndOn count memA memO apiO cleaned =
      providerAndOn count memA apiO cleaned sts := by
    cases memA with
    | false => exact ⟨[.dictionary], by simp [memoryAndOn]⟩
    | true =>
      rcases hm with h | rfl | rfl | ⟨best, rest, rfl, hs⟩
      · exact absurd h (by simp)
      · exact ⟨[.dictionary, .memory], by simp [memoryAndOn]⟩
      · exact ⟨[.dictionary, .memory], by simp [memoryAndOn]⟩
      · refine ⟨[.dictionary, .memory], ?_⟩
        simp only [memoryAndOn, if_neg hs]
        simp
  obtain ⟨sts, hps⟩ := hprov
  have hres := providerAndOn_passthrough count memA apiO cleaned sts ha
  obtain ⟨sc, hsc⟩ := validate_output_score_isSome cleaned cleaned "none" hne
    (by rintro ⟨h, -⟩; simp at h)
  refine ⟨(validate_output cleaned cleaned "none").quality, sc, ?_⟩
  rw [htr, hps, hres]
  simp [mkResult, hsc]

/-- C5 amended witness: `"zebra"` (valid, not in the term store), memory
unavailable, provider down — passthrough result with the input itself. -/
theorem claim_C5_amended_witness :
    ∃ q sc, (AgenticTranslator.translate 0 false (.ok []) none "zebra" "zu").result =
      .ok (.res "zebra" "none" q sc) :=
  claim_C5_amended 0 false (.ok []) none "zebra" "zu" "zebra" (by decide) (by decide)
    (by decide) (Or.inl rfl) (Or.inl rfl)

/-- C6 counterexample: the candidate `"???"` consists of a placeholder
marker, yet when the api-identical-text rule fires the scorer returns
`score = 0.2` with only the api-same warning — the placeholder downgrade
to `0.5` does not apply "regardless of prior rule outcome". -/
theorem claim_C6_counterexample :
    hasPlaceholder "???" = true ∧
    validate_output "???" "???" "api" =
      ⟨"low", some (mkRat 1 5), [.apiSameText]⟩ := by
  decide

/-- C6 amended: for every nonempty candidate containing a placeholder
marker, *provided the api-identical-text early return did not fire*, the
assessment is downgraded to `quality = low`, `score = 0.5`, with the
untranslated-markers warning appended — overriding the length-ratio rules
and the dictionary override. -/
theorem claim_C6_amended (src cand st : String) (h1 : cand ≠ "")
    (h2 : ¬(st = "api" ∧ pyLower cand = pyLower src))
    (h3 : hasPlaceholder cand = true) :
    (validate_output src cand st).quality = "low" ∧
    (validate_output src cand st).score = some (mkRat 1 2) ∧
    QWarning.untranslatedMarkers ∈ (validate_output src cand st).warnings := by
  simp only [validate_output, if_neg h1]
  split
  · rename_i h
    simp only [decide_eq_true_eq, Bool.and_eq_true] at h
    exact absurd ⟨h.1, h.2⟩ h2
  · exact ⟨rfl, rfl, by simp⟩

/-- C6 amended witness: a dictionary-sourced candidate carrying `##` is
downgraded to low/0.5 with the marker warning. -/
theorem claim_C6_amended_witness :
    (validate_output "hello" "x ##" "dictionary").quality = "low" ∧
    (validate_output "hello" "x ##" "dictionary").score = some (mkRat 1 2) ∧
    QWarning.untranslatedMarkers ∈ (validate_output "hello" "x ##" "dictionary").warnings :=
  claim_C6_amended "hello" "x ##" "dictionary" (by decide) (by simp) (by decide)

/-- C3 (code bug): `AgenticTranslator.translate` accepts no cache opt-out —
the `/translate` route passes the keyword arguments `source_lang` and
`use_memory`, which the resolver's signature does not accept, so the call
raises `TypeError`; and the embedded pipeline consults memory whenever the
memory component exists, with no flag to disable it. -/
theorem claim_C3_no_cache_optout_bug :
    pyCallRaisesTypeError translateKwargNames apiTranslateCallKwargs = true ∧
    Stage.memory ∈ (AgenticTranslator.translate 0 true (.ok []) none "hello" "zu").stages := by
  decide

/-- C7: when both `target_lang` and `session_id` are supplied (truthy),
the filter pushed into the index query is the `target_lang` one; the
result is the candidate list filtered client-side by both equalities and
truncated to `limit`; and every returned match corresponds to a candidate
satisfying both filters, with similarity `1 − distance`. -/
theorem claim_C7_dual_filter (queryIdx : String → Option WhereFilter → Nat → List Candidate)
    (qt t s : String) (lim : Nat) (ht : t ≠ "") (hs : s ≠ "") :
    mkWhereFilter (some t) (some s) = some (.byTargetLang t) ∧
    find_similar queryIdx qt (some t) (some s) lim =
      (((queryIdx qt (some (.byTargetLang t)) lim).filter
          (fun c => c.meta.target_lang == t && c.meta.session_id == s)).map
        (fun c => ⟨c.id, c.meta.input, c.meta.output, c.meta.source_lang,
          c.meta.target_lang, 1 - c.distance, c.meta.timestamp⟩)).take lim ∧
    (find_similar queryIdx qt (some t) (some s) lim).length ≤ lim ∧
    ∀ m ∈ find_similar queryIdx qt (some t) (some s) lim,
      ∃ c ∈ queryIdx qt (some (.byTargetLang t)) lim,
        c.meta.target_lang = t ∧ c.meta.session_id = s ∧
        m.target_lang = t ∧ m.similarity = 1 - c.distance := by
  have hwf : mkWhereFilter (some t) (some s) = some (.byTargetLang t) := by
    simp [mkWhereFilter, pyTruthy, ht]
  have hfil : ∀ c : Candidate,
      (!(pyTruthy (some t) && c.meta.target_lang != (some t).getD "") &&
       !(pyTruthy (some s) && c.meta.session_id != (some s).getD "")) =
      (c.meta.target_lang == t && c.meta.session_id == s) := by
    intro c
    simp [pyTruthy, ht, hs, bne]
  have hfeq : find_similar queryIdx qt (some t) (some s) lim =
      (((queryIdx qt (some (.byTargetLang t)) lim).filter
          (fun c => c.meta.target_lang == t && c.meta.session_id == s)).map
        (fun c => ⟨c.id, c.meta.input, c.meta.output, c.meta.source_lang,
          c.meta.target_lang, 1 - c.distance, c.meta.timestamp⟩)).take lim := by
    simp only [find_similar, hwf]
    rw [List.filter_congr (fun c _ => hfil c)]
  refine ⟨hwf, hfeq, ?_, ?_⟩
  · rw [hfeq]
    exact List.length_take_le _ _
  · intro m hm
    rw [hfeq] at hm
    have hm2 := List.mem_of_mem_take hm
    obtain ⟨c, hc, rfl⟩ := List.mem_map.mp hm2
    obtain ⟨hcl, hcp⟩ := List.mem_filter.mp hc
    simp only [Bool.and_eq_true, beq_iff_eq] at hcp
    exact ⟨c, hcl, hcp.1, hcp.2, hcp.1, rfl⟩

/-- C7 witness: a two-candidate index; only the candidate matching both
`zu` and session `s1` survives, and at most `limit` entries return. -/
theorem claim_C7_dual_filter_witness :
    mkWhereFilter (some "zu") (some "s1") = some (.byTargetLang "zu") ∧
    ∀ m ∈ find_similar
        (fun _ _ _ => [⟨"id1", ⟨"i", "o", "en", "zu", "s1", "ts"⟩, mkRat 1 4⟩,
                       ⟨"id2", ⟨"i2", "o2", "en", "zu", "s2", "ts"⟩, mkRat 1 8⟩])
        "q" (some "zu") (some "s1") 3,
      ∃ c ∈ (fun (_ : String) (_ : Option WhereFilter) (_ : Nat) =>
          [(⟨"id1", ⟨"i", "o", "en", "zu", "s1", "ts"⟩, mkRat 1 4⟩ : Candidate),
           ⟨"id2", ⟨"i2", "o2", "en", "zu", "s2", "ts"⟩, mkRat 1 8⟩])
          "q" (some (WhereFilter.byTargetLang "zu")) 3,
        c.meta.target_lang = "zu" ∧ c.meta.session_id = "s1" ∧
        m.target_lang = "zu" ∧ m.similarity = 1 - c.distance :=
  ⟨(claim_C7_dual_filter
      (fun _ _ _ => [⟨"id1", ⟨"i", "o", "en", "zu", "s1", "ts"⟩, mkRat 1 4⟩,
                     ⟨"id2", ⟨"i2", "o2", "en", "zu", "s2", "ts"⟩, mkRat 1 8⟩])
      "q" "zu" "s1" 3 (by decide) (by decide)).1,
   (claim_C7_dual_filter
      (fun _ _ _ => [⟨"id1", ⟨"i", "o", "en", "zu", "s1", "ts"⟩, mkRat 1 4⟩,
                     ⟨"id2", ⟨"i2", "o2", "en", "zu", "s2", "ts"⟩, mkRat 1 8⟩])
      "q" "zu" "s1" 3 (by decide) (by decide)).2.2.2⟩

/-- C8: the session pool registry — an existing id moves to the
most-recently-used end without changing membership; with the default
capacity 3 and the default session warmed, creating four distinct
non-default sessions evicts in LRU order so that the first is absent and
the default is always present; and with capacity 1 and only the default
resident, creation performs no eviction and the registry exceeds capacity
by exactly one instead of crashing. -/
theorem claim_C8_session_pool (d a b c e x sid : String) (s : List String)
    (h1 : a ≠ d) (h2 : b ≠ d) (h3 : c ≠ d) (h4 : e ≠ d)
    (hba : b ≠ a) (hca : c ≠ a) (hcb : c ≠ b)
    (hea : e ≠ a) (heb : e ≠ b) (hec : e ≠ c)
    (hx : x ≠ d) (hmem : sid ∈ s) :
    ((getOrCreate 3 d s sid).getLast? = some sid ∧
      ∀ y, y ∈ getOrCreate 3 d s sid ↔ y ∈ s) ∧
    ([a, b, c, e].foldl (getOrCreate 3 d) [d] = [d, c, e] ∧
      a ∉ [a, b, c, e].foldl (getOrCreate 3 d) [d] ∧
      d ∈ [a, b, c, e].foldl (getOrCreate 3 d) [d]) ∧
    (getOrCreate 1 d [d] x = [d, x] ∧
      ([d] : List String).length = 1 ∧ (getOrCreate 1 d [d] x).length = 2) := by
  have s1 : getOrCreate 3 d [d] a = [d, a] := by
    simp [getOrCreate, h1]
  have s2 : getOrCreate 3 d [d, a] b = [d, a, b] := by
    simp [getOrCreate, h2, hba]
  have s3 : getOrCreate 3 d [d, a, b] c = [d, b, c] := by
    simp [getOrCreate, evictFirstNonDefault, h3, hca, hcb, h1]
  have s4 : getOrCreate 3 d [d, b, c] e = [d, c, e] := by
    simp [getOrCreate, evictFirstNonDefault, h4, heb, hec, h2]
  have hfold : [a, b, c, e].foldl (getOrCreate 3 d) [d] = [d, c, e] := by
    show getOrCreate 3 d (getOrCreate 3 d (getOrCreate 3 d (getOrCreate 3 d [d] a) b) c) e
        = [d, c, e]
    rw [s1, s2, s3, s4]
  refine ⟨⟨?_, ?_⟩, ⟨hfold, ?_, ?_⟩, ?_, rfl, ?_⟩
  · simp only [getOrCreate, if_pos hmem]
    exact List.getLast?_concat _
  · intro y
    simp only [getOrCreate, if_pos hmem]
    by_cases hy : y = sid
    · subst hy
      simp [hmem]
    · simp [List.mem_append, hy, List.mem_erase_of_ne hy]
  · rw [hfold]
    simp [h1, Ne.symm hca, Ne.symm hea]
  · rw [hfold]
    simp
  · simp [getOrCreate, evictFirstNonDefault, hx]
  · simp [getOrCreate, evictFirstNonDefault, hx]

/-- C8 witness: concrete session ids `s1..s4` against default pool
capacity 3 with the warmed `default` session. -/
theorem claim_C8_session_pool_witness :
    (["s1", "s2", "s3", "s4"].foldl (getOrCreate 3 "default") ["default"] =
      ["default", "s3", "s4"] ∧
     "s1" ∉ ["s1", "s2", "s3", "s4"].foldl (getOrCreate 3 "default") ["default"] ∧
     "default" ∈ ["s1", "s2", "s3", "s4"].foldl (getOrCreate 3 "default") ["default"]) ∧
    (getOrCreate 1 "default" ["default"] "s9" = ["default", "s9"] ∧
      (["default"] : List String).length = 1 ∧
      (getOrCreate 1 "default" ["default"] "s9").length = 2) :=
  ⟨(claim_C8_session_pool "default" "s1" "s2" "s3" "s4" "s9" "default" ["default"]
      (by decide) (by decide) (by decide) (by decide) (by decide) (by decide) (by decide)
      (by decide) (by decide) (by decide) (by decide) (by decide)).2.1,
   (claim_C8_session_pool "default" "s1" "s2" "s3" "s4" "s9" "default" ["default"]
      (by decide) (by decide) (by decide) (by decide) (by decide) (by decide) (by decide)
      (by decide) (by decide) (by decide) (by decide) (by decide)).2.2⟩
